import Mathlib

/-!
Shallow embedding of `pp/mdp/mdp.py`: the abstract `MDP` container and the
`GridWorldMDP` transition/reward engine.

Reward entries are modelled by `Rew`: either the float negative infinity
(`Rew.ninf`, assigned to illegal moves) or a finite value `Rew.val x` with
`x : ℚ`.  The environment constant `np.sqrt(2)` is modelled as an explicit
parameter `sqrt2` of the construction; the Euclidean scaling step is the
relational fact "diagonal columns get multiplied by that constant", which
does not depend on its numeric value.
-/

/-- A reward entry: IEEE negative infinity or a finite value. -/
inductive Rew where
  | ninf : Rew
  | val : ℚ → Rew
  deriving DecidableEq

/-- Multiplication of a reward entry by a positive scalar, as performed by
`np.multiply(col, np.sqrt(2), out=col)`: finite values are multiplied,
negative infinity stays negative infinity. -/
def Rew.scale (k : ℚ) : Rew → Rew
  | .ninf => .ninf
  | .val x => .val (x * k)

/-- The 9-action enumeration `GridWorldMDP.Actions` (an `IntEnum` with
values `UP=0 .. ABSORB=8`). -/
inductive Actions where
  | UP | DOWN | LEFT | RIGHT | UP_LEFT | UP_RIGHT | DOWN_LEFT | DOWN_RIGHT | ABSORB
  deriving DecidableEq

/-- The fixed `(Δrow, Δcolumn)` offset applied by `_transition_helper` for
each action (`LEFT` decrements the row, `UP` increments the column, etc.,
exactly as in the source's `if/elif` chain). -/
def Actions.offset : Actions → ℤ × ℤ
  | .UP => (0, 1)
  | .DOWN => (0, -1)
  | .LEFT => (-1, 0)
  | .RIGHT => (1, 0)
  | .UP_LEFT => (-1, 1)
  | .UP_RIGHT => (1, 1)
  | .DOWN_LEFT => (-1, -1)
  | .DOWN_RIGHT => (1, -1)
  | .ABSORB => (0, 0)

/-- Membership in `GridWorldMDP.diagonal_actions`. -/
def Actions.diagonal : Actions → Bool
  | .UP_LEFT | .UP_RIGHT | .DOWN_LEFT | .DOWN_RIGHT => true
  | _ => false

/-- The actions in enumeration order, as iterated by `for a in xrange(A)`. -/
def actionList : List Actions :=
  [.UP, .DOWN, .LEFT, .RIGHT, .UP_LEFT, .UP_RIGHT, .DOWN_LEFT, .DOWN_RIGHT, .ABSORB]

/-- `coor_to_state` on in-range inputs: `r * cols + c`. -/
def coor_to_state (cols r c : ℕ) : ℕ := r * cols + c

/-- `state_to_coor` on in-range inputs: `(s // cols, s % cols)`. -/
def state_to_coor (cols s : ℕ) : ℕ × ℕ := (s / cols, s % cols)

/-- `coor_to_state` with its `assert 0 <= r < rows` / `assert 0 <= c < cols`
guards: `none` models the `AssertionError`.  Arguments are Python ints. -/
def coor_to_state_opt (rows cols : ℕ) (r c : ℤ) : Option ℤ :=
  if 0 ≤ r ∧ r < (rows : ℤ) ∧ 0 ≤ c ∧ c < (cols : ℤ) then some (r * cols + c)
  else none

/-- `state_to_coor` with its `assert s < rows * cols` guard: `none` models
the `AssertionError`.  Python floor division and modulus are `Int.fdiv`
and `Int.fmod`. -/
def state_to_coor_opt (rows cols : ℕ) (s : ℤ) : Option (ℤ × ℤ) :=
  if s < (rows : ℤ) * cols then some (s.fdiv cols, s.fmod cols)
  else none

/-- `GridWorldMDP._transition_helper(s, a, alert_illegal=True)`: decompose
`s`, apply the action's offset, flag the move illegal when the candidate
leaves the grid or the action is diagonal while `disallow_diag` is set,
reset the candidate to the origin when illegal, and re-encode. -/
def transition_helper (rows cols : ℕ) (disallow_diag : Bool) (s : ℕ) (a : Actions) :
    ℕ × Bool :=
  if ((state_to_coor cols s).1 : ℤ) + a.offset.1 < 0 ∨
      (rows : ℤ) ≤ ((state_to_coor cols s).1 : ℤ) + a.offset.1 ∨
      ((state_to_coor cols s).2 : ℤ) + a.offset.2 < 0 ∨
      (cols : ℤ) ≤ ((state_to_coor cols s).2 : ℤ) + a.offset.2 ∨
      (disallow_diag && a.diagonal) = true then
    (coor_to_state cols (state_to_coor cols s).1 (state_to_coor cols s).2, true)
  else
    (coor_to_state cols (((state_to_coor cols s).1 : ℤ) + a.offset.1).toNat
      ((((state_to_coor cols s).2 : ℤ) + a.offset.2)).toNat, false)

/-- The next state computed by `_transition_helper`. -/
def transition (rows cols : ℕ) (disallow_diag : Bool) (s : ℕ) (a : Actions) : ℕ :=
  (transition_helper rows cols disallow_diag s a).1

/-- The `illegal` flag computed by `_transition_helper`. -/
def illegal (rows cols : ℕ) (disallow_diag : Bool) (s : ℕ) (a : Actions) : Bool :=
  (transition_helper rows cols disallow_diag s a).2

/-- Legality in the words of the specification: the candidate coordinate
obtained by applying the action's fixed offset lies inside
`[0, rows) × [0, cols)`, and the action is not diagonal when
`disallow_diag` is set. -/
abbrev legalSpec (rows cols : ℕ) (disallow_diag : Bool) (s : ℕ) (a : Actions) : Prop :=
  0 ≤ ((state_to_coor cols s).1 : ℤ) + a.offset.1 ∧
  ((state_to_coor cols s).1 : ℤ) + a.offset.1 < (rows : ℤ) ∧
  0 ≤ ((state_to_coor cols s).2 : ℤ) + a.offset.2 ∧
  ((state_to_coor cols s).2 : ℤ) + a.offset.2 < (cols : ℤ) ∧
  ¬(disallow_diag = true ∧ a.diagonal = true)

theorem mem_actionList (a : Actions) : a ∈ actionList := by
  cases a <;> simp [actionList]

theorem illegal_iff_not_legalSpec (rows cols : ℕ) (dd : Bool) (s : ℕ) (a : Actions) :
    illegal rows cols dd s a = true ↔ ¬ legalSpec rows cols dd s a := by
  unfold illegal transition_helper legalSpec
  split
  · rename_i h
    dsimp only
    simp only [true_iff]
    push_neg
    intro h1 h2 h3 h4
    rcases h with h | h | h | h | h
    · omega
    · omega
    · omega
    · omega
    · simpa using h
  · rename_i h
    push_neg at h
    dsimp only
    simp only [Bool.false_eq_true, false_iff, not_not]
    refine ⟨h.1, h.2.1, h.2.2.1, h.2.2.2.1, ?_⟩
    rintro ⟨hd, hdiag⟩
    exact h.2.2.2.2 (by simp [hd, hdiag])

theorem transition_of_illegal (rows cols : ℕ) (dd : Bool) (s : ℕ) (a : Actions)
    (h : illegal rows cols dd s a = true) : transition rows cols dd s a = s := by
  revert h
  unfold transition illegal transition_helper
  split
  · intro _
    simp only [coor_to_state, state_to_coor]
    rw [Nat.mul_comm]
    exact Nat.div_add_mod s cols
  · intro h
    simp at h

theorem transition_of_legal (rows cols : ℕ) (dd : Bool) (s : ℕ) (a : Actions)
    (h : legalSpec rows cols dd s a) :
    transition rows cols dd s a =
      (((state_to_coor cols s).1 : ℤ) + a.offset.1).toNat * cols +
        ((((state_to_coor cols s).2 : ℤ) + a.offset.2)).toNat ∧
    illegal rows cols dd s a = false := by
  obtain ⟨h1, h2, h3, h4, h5⟩ := h
  have hcond : ¬(((state_to_coor cols s).1 : ℤ) + a.offset.1 < 0 ∨
      (rows : ℤ) ≤ ((state_to_coor cols s).1 : ℤ) + a.offset.1 ∨
      ((state_to_coor cols s).2 : ℤ) + a.offset.2 < 0 ∨
      (cols : ℤ) ≤ ((state_to_coor cols s).2 : ℤ) + a.offset.2 ∨
      (dd && a.diagonal) = true) := by
    push_neg
    refine ⟨h1, h2, h3, h4, ?_⟩
    intro hb
    rw [Bool.and_eq_true] at hb
    exact h5 hb
  constructor
  · unfold transition transition_helper
    rw [if_neg hcond]
    rfl
  · unfold illegal transition_helper
    rw [if_neg hcond]

theorem decode_encode (cols r c : ℕ) (hc : c < cols) :
    state_to_coor cols (coor_to_state cols r c) = (r, c) := by
  have hpos : 0 < cols := Nat.lt_of_le_of_lt (Nat.zero_le c) hc
  unfold state_to_coor coor_to_state
  rw [Nat.mul_comm r cols]
  simp only [Prod.mk.injEq]
  constructor
  · rw [Nat.mul_add_div hpos, Nat.div_eq_of_lt hc, Nat.add_zero]
  · rw [Nat.mul_add_mod, Nat.mod_eq_of_lt hc]

theorem encode_decode (cols s : ℕ) :
    coor_to_state cols (state_to_coor cols s).1 (state_to_coor cols s).2 = s := by
  unfold coor_to_state state_to_coor
  rw [Nat.mul_comm]
  exact Nat.div_add_mod s cols

theorem decode_bounds (rows cols s : ℕ) (hs : s < rows * cols) :
    (state_to_coor cols s).1 < rows ∧ (state_to_coor cols s).2 < cols := by
  have hc : 0 < cols := by
    rcases Nat.eq_zero_or_pos cols with h | h
    · subst h; omega
    · exact h
  constructor
  · exact Nat.div_lt_of_lt_mul (by rw [Nat.mul_comm] at hs; exact hs)
  · exact Nat.mod_lt s hc

/-- The reward assigned to `(s, a)` by the construction loop of
`GridWorldMDP.__init__`, before Euclidean scaling and before `set_goal`:
the table is prefilled with `default_reward`; a legal move into a
coordinate present in `reward_dict` gets the override; an illegal move
gets `-inf`. -/
def baseReward (rows cols : ℕ) (dd : Bool) (rdict : ℕ × ℕ → Option ℚ)
    (default_reward : ℚ) (s : ℕ) (a : Actions) : Rew :=
  if (transition_helper rows cols dd s a).2 then Rew.ninf
  else
    match rdict (state_to_coor cols (transition_helper rows cols dd s a).1) with
    | some v => Rew.val v
    | none => Rew.val default_reward

/-- The reward table after the Euclidean-scaling step of
`GridWorldMDP.__init__`: when `euclidean_rewards` is set, each of the four
diagonal-action columns is multiplied in place by `sqrt2`. -/
def scaledRewards (rows cols : ℕ) (dd : Bool) (rdict : ℕ × ℕ → Option ℚ)
    (default_reward : ℚ) (euclidean_rewards : Bool) (sqrt2 : ℚ)
    (s : ℕ) (a : Actions) : Rew :=
  if euclidean_rewards && a.diagonal then
    Rew.scale sqrt2 (baseReward rows cols dd rdict default_reward s a)
  else baseReward rows cols dd rdict default_reward s a

/-- `self.neighbors[s]` as built by the construction loop: for each action
in enumeration order whose move is legal, the pair `(a, s_prime)`. -/
def mkNeighbors (rows cols : ℕ) (dd : Bool) (s : ℕ) : List (Actions × ℕ) :=
  (actionList.filter (fun a => !(transition_helper rows cols dd s a).2)).map
    (fun a => (a, (transition_helper rows cols dd s a).1))

/-- `self.reverse_neighbors[t]` as built by the construction loop: for each
source state `s` in `0..S-1` and each action in enumeration order, the
pair `(a, s)` whenever the move is legal and lands on `t`. -/
def mkReverseNeighbors (rows cols : ℕ) (dd : Bool) (t : ℕ) : List (Actions × ℕ) :=
  (List.range (rows * cols)).flatMap (fun s =>
    (actionList.filter (fun a => !(transition_helper rows cols dd s a).2 &&
        ((transition_helper rows cols dd s a).1 == t))).map (fun a => (a, s)))

/-- The observable fields of a constructed `GridWorldMDP`. -/
structure GridWorldMDP where
  rows : ℕ
  cols : ℕ
  default_reward : ℚ
  allow_wait : Bool
  disallow_diag : Bool
  goal : Option ℕ
  rewards : ℕ → Actions → Rew
  transition : ℕ → Actions → ℕ
  neighbors : ℕ → List (Actions × ℕ)
  reverse_neighbors : ℕ → List (Actions × ℕ)

attribute [ext] GridWorldMDP

/-- The number of states `S = rows * cols`. -/
def GridWorldMDP.S (e : GridWorldMDP) : ℕ := e.rows * e.cols

/-- The in-place overwrite of the ABSORB reward column performed by
`set_goal`: fill the column with `default_reward` when `allow_wait` is set
and with `-inf` otherwise, then put `0` at the goal state when a goal is
given.  All other columns keep their previous values. -/
def absorbColumnFill (allow_wait : Bool) (default_reward : ℚ) (goal_state : Option ℕ)
    (old : ℕ → Actions → Rew) : ℕ → Actions → Rew :=
  fun s a =>
    if a = Actions.ABSORB then
      if goal_state = some s then Rew.val 0
      else if allow_wait then Rew.val default_reward else Rew.ninf
    else old s a

/-- `GridWorldMDP.set_goal`: record the new goal and overwrite the ABSORB
reward column. -/
def GridWorldMDP.set_goal (e : GridWorldMDP) (goal_state : Option ℕ) : GridWorldMDP :=
  { e with
    goal := goal_state,
    rewards := absorbColumnFill e.allow_wait e.default_reward goal_state e.rewards }

/-- `GridWorldMDP.set_all_goals` (experimental): ABSORB reward `0` at
every state; the stored goal is not changed. -/
def GridWorldMDP.set_all_goals (e : GridWorldMDP) : GridWorldMDP :=
  { e with
    rewards := fun s a => if a = Actions.ABSORB then Rew.val 0 else e.rewards s a }

/-- `GridWorldMDP.__init__`: build the transition cache, the adjacency
lists and the base reward table, apply Euclidean scaling, then call
`set_goal goal_state`.  `sqrt2` stands for the environment constant
`np.sqrt(2)`. -/
def mkGrid (rows cols : ℕ) (rdict : ℕ × ℕ → Option ℚ) (goal_state : Option ℕ)
    (default_reward : ℚ) (euclidean_rewards allow_wait disallow_diag : Bool)
    (sqrt2 : ℚ) : GridWorldMDP :=
  GridWorldMDP.set_goal
    { rows := rows
      cols := cols
      default_reward := default_reward
      allow_wait := allow_wait
      disallow_diag := disallow_diag
      goal := none
      rewards := scaledRewards rows cols disallow_diag rdict default_reward
        euclidean_rewards sqrt2
      transition := fun s a => (transition_helper rows cols disallow_diag s a).1
      neighbors := mkNeighbors rows cols disallow_diag
      reverse_neighbors := mkReverseNeighbors rows cols disallow_diag }
    goal_state

/-- `GridWorldMDP.copy`: construct a fresh engine from
`GridWorldMDP(self.rows, self.cols, {})` (all remaining arguments take
their defaults), then replace its reward table by a value copy of the
source's. -/
def GridWorldMDP.copy (sqrt2 : ℚ) (e : GridWorldMDP) : GridWorldMDP :=
  { mkGrid e.rows e.cols (fun _ => none) none (-1) true false false sqrt2 with
    rewards := e.rewards }

/-- A numpy reward matrix: its shape together with its entries. -/
structure NpMatrix where
  shape : ℕ × ℕ
  entry : ℕ → ℕ → Rew

/-- A Python value passed as the `transition` argument: whether
`callable(·)` holds, and the function it denotes when invoked. -/
structure PyCallable where
  callable : Bool
  fn : ℤ → ℤ → ℤ

/-- The assertion that fails during `MDP.__init__`. -/
inductive MDPError where
  | shapeError
  | typeError
  deriving DecidableEq

/-- A constructed abstract `MDP`: the four arguments stored unchanged. -/
structure MDPStruct where
  S : ℤ
  A : ℤ
  rewards : NpMatrix
  transition : PyCallable

/-- `MDP.__init__(S, A, rewards, transition)`: `S` and `A` are Python
ints (the `isinstance` asserts hold by typing); then
`assert rewards.shape == (S, A)` and `assert callable(transition)` run in
order, and on success the four arguments are stored unchanged. -/
def MDP.init (S A : ℤ) (rewards : NpMatrix) (transition : PyCallable) :
    Except MDPError MDPStruct :=
  if ¬((rewards.shape.1 : ℤ) = S ∧ (rewards.shape.2 : ℤ) = A) then
    Except.error MDPError.shapeError
  else if ¬ transition.callable then Except.error MDPError.typeError
  else Except.ok ⟨S, A, rewards, transition⟩

/-- A store of numpy reward arrays: an allocation counter and the contents
of each allocated array, indexed by array identity.  Models which arrays
share storage. -/
structure RewStore where
  next : ℕ
  mem : ℕ → (ℕ → Actions → Rew)

/-- `np.copy` of the array `src` as performed by `GridWorldMDP.copy`: a
fresh array identity holding the same contents. -/
def RewStore.npcopy (st : RewStore) (src : ℕ) : RewStore × ℕ :=
  ({ next := st.next + 1,
     mem := fun i => if i = st.next then st.mem src else st.mem i }, st.next)

/-- An in-place mutation of the array `rid` (such as the column fills of
`set_goal` or `set_all_goals`): only the contents at `rid` change. -/
def RewStore.update (st : RewStore) (rid : ℕ)
    (f : (ℕ → Actions → Rew) → (ℕ → Actions → Rew)) : RewStore :=
  { st with mem := fun i => if i = rid then f (st.mem i) else st.mem i }

theorem mkGrid_rewards (rows cols : ℕ) (rdict : ℕ × ℕ → Option ℚ)
    (goal_state : Option ℕ) (default_reward sqrt2 : ℚ) (eu aw dd : Bool) :
    (mkGrid rows cols rdict goal_state default_reward eu aw dd sqrt2).rewards =
      absorbColumnFill aw default_reward goal_state
        (scaledRewards rows cols dd rdict default_reward eu sqrt2) := rfl

theorem mkGrid_neighbors (rows cols : ℕ) (rdict : ℕ × ℕ → Option ℚ)
    (goal_state : Option ℕ) (default_reward sqrt2 : ℚ) (eu aw dd : Bool) :
    (mkGrid rows cols rdict goal_state default_reward eu aw dd sqrt2).neighbors =
      mkNeighbors rows cols dd := rfl

theorem mkGrid_reverse_neighbors (rows cols : ℕ) (rdict : ℕ × ℕ → Option ℚ)
    (goal_state : Option ℕ) (default_reward sqrt2 : ℚ) (eu aw dd : Bool) :
    (mkGrid rows cols rdict goal_state default_reward eu aw dd sqrt2).reverse_neighbors =
      mkReverseNeighbors rows cols dd := rfl

theorem mkGrid_transition (rows cols : ℕ) (rdict : ℕ × ℕ → Option ℚ)
    (goal_state : Option ℕ) (default_reward sqrt2 : ℚ) (eu aw dd : Bool) :
    (mkGrid rows cols rdict goal_state default_reward eu aw dd sqrt2).transition =
      transition rows cols dd := rfl

theorem absorb_legalSpec (rows cols : ℕ) (dd : Bool) (s : ℕ) (hs : s < rows * cols) :
    legalSpec rows cols dd s Actions.ABSORB := by
  obtain ⟨hr, hc⟩ := decode_bounds rows cols s hs
  refine ⟨?_, ?_, ?_, ?_, ?_⟩ <;> simp [Actions.offset, Actions.diagonal] <;> omega

theorem absorb_transition (rows cols : ℕ) (dd : Bool) (s : ℕ) (hs : s < rows * cols) :
    transition rows cols dd s Actions.ABSORB = s ∧
      illegal rows cols dd s Actions.ABSORB = false := by
  obtain ⟨ht, hil⟩ :=
    transition_of_legal rows cols dd s Actions.ABSORB (absorb_legalSpec rows cols dd s hs)
  refine ⟨?_, hil⟩
  rw [ht]
  have h1 : (((state_to_coor cols s).1 : ℤ) + Actions.ABSORB.offset.1).toNat =
      (state_to_coor cols s).1 := by simp [Actions.offset]
  have h2 : (((state_to_coor cols s).2 : ℤ) + Actions.ABSORB.offset.2).toNat =
      (state_to_coor cols s).2 := by simp [Actions.offset]
  rw [h1, h2]
  exact encode_decode cols s

theorem mem_mkNeighbors_iff (rows cols : ℕ) (dd : Bool) (s : ℕ) (a : Actions) :
    (a, transition rows cols dd s a) ∈ mkNeighbors rows cols dd s ↔
      illegal rows cols dd s a = false := by
  unfold mkNeighbors
  simp only [List.mem_map, List.mem_filter]
  constructor
  · rintro ⟨a', ⟨-, hleg⟩, heq⟩
    rw [Prod.mk.injEq] at heq
    obtain ⟨rfl, -⟩ := heq
    simpa [illegal] using hleg
  · intro h
    exact ⟨a, ⟨mem_actionList a, by simpa [illegal] using h⟩, rfl⟩

theorem mem_mkReverseNeighbors_iff (rows cols : ℕ) (dd : Bool) (s t : ℕ) (a : Actions)
    (hs : s < rows * cols) (ht : transition rows cols dd s a = t) :
    (a, s) ∈ mkReverseNeighbors rows cols dd t ↔
      illegal rows cols dd s a = false := by
  unfold mkReverseNeighbors
  simp only [List.mem_flatMap, List.mem_map, List.mem_filter, List.mem_range]
  constructor
  · rintro ⟨s', hs', a', ⟨-, hcond⟩, heq⟩
    rw [Prod.mk.injEq] at heq
    obtain ⟨rfl, rfl⟩ := heq
    rw [Bool.and_eq_true] at hcond
    simpa [illegal] using hcond.1
  · intro h
    refine ⟨s, hs, a, ⟨mem_actionList a, ?_⟩, rfl⟩
    rw [Bool.and_eq_true]
    refine ⟨by simpa [illegal] using h, ?_⟩
    simpa [transition, beq_iff_eq] using ht

/-- C1: for every state `s` in `[0, rows*cols)` and every action `a`, if
the move is legal (the candidate coordinate obtained by applying the
action's fixed offset lies inside `[0, rows) × [0, cols)` and the action
is not diagonal when `disallow_diag` is set), then
`decode(transition(s,a))` differs from `decode(s)` by exactly the
action's defined offset; if the move is illegal, `transition(s,a) = s`. -/
theorem claim_C1 (rows cols : ℕ) (dd : Bool) (s : ℕ) (a : Actions)
    (hs : s < rows * cols) :
    (legalSpec rows cols dd s a →
      ((state_to_coor cols (transition rows cols dd s a)).1 : ℤ)
          = ((state_to_coor cols s).1 : ℤ) + a.offset.1 ∧
      ((state_to_coor cols (transition rows cols dd s a)).2 : ℤ)
          = ((state_to_coor cols s).2 : ℤ) + a.offset.2) ∧
    (¬ legalSpec rows cols dd s a → transition rows cols dd s a = s) := by
  constructor
  · intro h
    obtain ⟨ht, -⟩ := transition_of_legal rows cols dd s a h
    obtain ⟨h1, h2, h3, h4, h5⟩ := h
    rw [ht]
    have hcnat : ((((state_to_coor cols s).2 : ℤ) + a.offset.2)).toNat < cols := by omega
    have hde := decode_encode cols ((((state_to_coor cols s).1 : ℤ) + a.offset.1)).toNat
      ((((state_to_coor cols s).2 : ℤ) + a.offset.2)).toNat hcnat
    rw [show ((((state_to_coor cols s).1 : ℤ) + a.offset.1)).toNat * cols +
        ((((state_to_coor cols s).2 : ℤ) + a.offset.2)).toNat =
        coor_to_state cols ((((state_to_coor cols s).1 : ℤ) + a.offset.1)).toNat
        ((((state_to_coor cols s).2 : ℤ) + a.offset.2)).toNat from rfl, hde]
    constructor
    · simp only [Prod.fst]
      omega
    · simp only [Prod.snd]
      omega
  · intro h
    exact transition_of_illegal rows cols dd s a
      ((illegal_iff_not_legalSpec rows cols dd s a).mpr h)

/-- Witness for C1 on the 2 x 2 grid at state 0 and action RIGHT. -/
theorem claim_C1_witness :
    (0 : ℕ) < 2 * 2 ∧
    ((legalSpec 2 2 false 0 Actions.RIGHT →
      ((state_to_coor 2 (transition 2 2 false 0 Actions.RIGHT)).1 : ℤ)
          = ((state_to_coor 2 0).1 : ℤ) + Actions.RIGHT.offset.1 ∧
      ((state_to_coor 2 (transition 2 2 false 0 Actions.RIGHT)).2 : ℤ)
          = ((state_to_coor 2 0).2 : ℤ) + Actions.RIGHT.offset.2) ∧
    (¬ legalSpec 2 2 false 0 Actions.RIGHT → transition 2 2 false 0 Actions.RIGHT = 0)) :=
  ⟨by decide, claim_C1 2 2 false 0 Actions.RIGHT (by decide)⟩

/-- C10 (implicit): the ABSORB action is never flagged illegal, so for
every state `s` of every constructed engine `transition(s, ABSORB) = s`
and `(ABSORB, s)` appears in both the forward and the reverse adjacency
list of `s`, for every goal configuration and every value of `allow_wait`
and `disallow_diag`; the adjacency lists are also untouched by any later
goal reconfiguration. -/
theorem claim_C10 (rows cols : ℕ) (rdict : ℕ × ℕ → Option ℚ) (goal_state : Option ℕ)
    (default_reward sqrt2 : ℚ) (eu aw dd : Bool) (s : ℕ) (hs : s < rows * cols) :
    illegal rows cols dd s Actions.ABSORB = false ∧
    (mkGrid rows cols rdict goal_state default_reward eu aw dd sqrt2).transition s
      Actions.ABSORB = s ∧
    (Actions.ABSORB, s) ∈
      (mkGrid rows cols rdict goal_state default_reward eu aw dd sqrt2).neighbors s ∧
    (Actions.ABSORB, s) ∈
      (mkGrid rows cols rdict goal_state default_reward eu aw dd sqrt2).reverse_neighbors s ∧
    (∀ g', ((mkGrid rows cols rdict goal_state default_reward eu aw dd sqrt2).set_goal
        g').neighbors =
      (mkGrid rows cols rdict goal_state default_reward eu aw dd sqrt2).neighbors ∧
      ((mkGrid rows cols rdict goal_state default_reward eu aw dd sqrt2).set_goal
        g').reverse_neighbors =
      (mkGrid rows cols rdict goal_state default_reward eu aw dd sqrt2).reverse_neighbors) := by
  obtain ⟨ht, hil⟩ := absorb_transition rows cols dd s hs
  refine ⟨hil, ?_, ?_, ?_, fun g' => ⟨rfl, rfl⟩⟩
  · rw [mkGrid_transition]
    exact ht
  · rw [mkGrid_neighbors]
    have := (mem_mkNeighbors_iff rows cols dd s Actions.ABSORB).mpr hil
    rwa [ht] at this
  · rw [mkGrid_reverse_neighbors]
    exact (mem_mkReverseNeighbors_iff rows cols dd s s Actions.ABSORB hs ht).mpr hil

/-- Witness for C10 on the 2 x 2 grid at state 3 with `allow_wait = false`,
`disallow_diag = true` and goal state 0. -/
theorem claim_C10_witness :
    (3 : ℕ) < 2 * 2 ∧
    (illegal 2 2 true 3 Actions.ABSORB = false ∧
    (mkGrid 2 2 (fun _ => none) (some 0) (-1) true false true 1).transition 3
      Actions.ABSORB = 3 ∧
    (Actions.ABSORB, 3) ∈
      (mkGrid 2 2 (fun _ => none) (some 0) (-1) true false true 1).neighbors 3 ∧
    (Actions.ABSORB, 3) ∈
      (mkGrid 2 2 (fun _ => none) (some 0) (-1) true false true 1).reverse_neighbors 3 ∧
    (∀ g', ((mkGrid 2 2 (fun _ => none) (some 0) (-1) true false true 1).set_goal
        g').neighbors =
      (mkGrid 2 2 (fun _ => none) (some 0) (-1) true false true 1).neighbors ∧
      ((mkGrid 2 2 (fun _ => none) (some 0) (-1) true false true 1).set_goal
        g').reverse_neighbors =
      (mkGrid 2 2 (fun _ => none) (some 0) (-1) true false true 1).reverse_neighbors)) :=
  ⟨by decide, claim_C10 2 2 (fun _ => none) (some 0) (-1) 1 true false true 3 (by decide)⟩

/-- C3: for every `(s, a)` of a constructed engine, `(a, transition(s,a))`
appears in the forward adjacency list of `s` iff the move is legal, and
`(a, s)` appears in the reverse adjacency list of `transition(s,a)` iff
the move is legal. -/
theorem claim_C3 (rows cols : ℕ) (rdict : ℕ × ℕ → Option ℚ) (goal_state : Option ℕ)
    (default_reward sqrt2 : ℚ) (eu aw dd : Bool) (s : ℕ) (a : Actions)
    (hs : s < rows * cols) :
    ((a, transition rows cols dd s a) ∈
        (mkGrid rows cols rdict goal_state default_reward eu aw dd sqrt2).neighbors s ↔
      illegal rows cols dd s a = false) ∧
    ((a, s) ∈
        (mkGrid rows cols rdict goal_state default_reward eu aw dd
          sqrt2).reverse_neighbors (transition rows cols dd s a) ↔
      illegal rows cols dd s a = false) := by
  rw [mkGrid_neighbors, mkGrid_reverse_neighbors]
  exact ⟨mem_mkNeighbors_iff rows cols dd s a,
    mem_mkReverseNeighbors_iff rows cols dd s _ a hs rfl⟩

/-- Witness for C3 on the 2 x 2 grid at state 0 and the illegal action
LEFT (the forward and reverse lists both omit the pair). -/
theorem claim_C3_witness :
    (0 : ℕ) < 2 * 2 ∧
    (((Actions.LEFT, transition 2 2 false 0 Actions.LEFT) ∈
        (mkGrid 2 2 (fun _ => none) none (-1) true false false 1).neighbors 0 ↔
      illegal 2 2 false 0 Actions.LEFT = false) ∧
    ((Actions.LEFT, 0) ∈
        (mkGrid 2 2 (fun _ => none) none (-1) true false false
          1).reverse_neighbors (transition 2 2 false 0 Actions.LEFT) ↔
      illegal 2 2 false 0 Actions.LEFT = false)) :=
  ⟨by decide, claim_C3 2 2 (fun _ => none) none (-1) 1 true false false 0 Actions.LEFT
    (by decide)⟩

/-- C2: during construction (before scaling and goal reconfiguration) the
reward of `(s, a)` is `-inf` when the move is illegal, regardless of
`reward_dict`; otherwise it is the `reward_dict` override for the
coordinate of the resulting state when present, else `default_reward`.
In the final table, illegal transitions still carry `-inf` regardless of
`reward_dict`. -/
theorem claim_C2 (rows cols : ℕ) (rdict : ℕ × ℕ → Option ℚ) (goal_state : Option ℕ)
    (default_reward sqrt2 : ℚ) (eu aw dd : Bool) (s : ℕ) (a : Actions)
    (hs : s < rows * cols) :
    (illegal rows cols dd s a = true →
      baseReward rows cols dd rdict default_reward s a = Rew.ninf) ∧
    (illegal rows cols dd s a = false →
      ∀ v, rdict (state_to_coor cols (transition rows cols dd s a)) = some v →
        baseReward rows cols dd rdict default_reward s a = Rew.val v) ∧
    (illegal rows cols dd s a = false →
      rdict (state_to_coor cols (transition rows cols dd s a)) = none →
        baseReward rows cols dd rdict default_reward s a = Rew.val default_reward) ∧
    (illegal rows cols dd s a = true →
      (mkGrid rows cols rdict goal_state default_reward eu aw dd sqrt2).rewards s a =
        Rew.ninf) := by
  refine ⟨?_, ?_, ?_, ?_⟩
  · intro h
    unfold baseReward
    rw [show (transition_helper rows cols dd s a).2 = true from h]
    simp
  · intro h v hv
    unfold baseReward
    rw [show (transition_helper rows cols dd s a).2 = false from h]
    simp only [transition] at hv
    simp [hv]
  · intro h hv
    unfold baseReward
    rw [show (transition_helper rows cols dd s a).2 = false from h]
    simp only [transition] at hv
    simp [hv]
  · intro h
    by_cases habs : a = Actions.ABSORB
    · subst habs
      obtain ⟨-, hleg⟩ := absorb_transition rows cols dd s hs
      rw [h] at hleg
      cases hleg
    · rw [mkGrid_rewards]
      unfold absorbColumnFill
      rw [if_neg habs]
      unfold scaledRewards
      have hb : baseReward rows cols dd rdict default_reward s a = Rew.ninf := by
        unfold baseReward
        rw [show (transition_helper rows cols dd s a).2 = true from h]
        simp
      rw [hb]
      split
      · rfl
      · rfl

/-- Witness for C2 on the 2 x 2 grid at state 0 and action LEFT (an
illegal move), with an override map granting 5 at every coordinate. -/
theorem claim_C2_witness :
    (0 : ℕ) < 2 * 2 ∧
    ((illegal 2 2 false 0 Actions.LEFT = true →
      baseReward 2 2 false (fun _ => some 5) (-1) 0 Actions.LEFT = Rew.ninf) ∧
    (illegal 2 2 false 0 Actions.LEFT = false →
      ∀ v, (fun (_ : ℕ × ℕ) => some (5 : ℚ))
          (state_to_coor 2 (transition 2 2 false 0 Actions.LEFT)) = some v →
        baseReward 2 2 false (fun _ => some 5) (-1) 0 Actions.LEFT = Rew.val v) ∧
    (illegal 2 2 false 0 Actions.LEFT = false →
      (fun (_ : ℕ × ℕ) => some (5 : ℚ))
          (state_to_coor 2 (transition 2 2 false 0 Actions.LEFT)) = none →
        baseReward 2 2 false (fun _ => some 5) (-1) 0 Actions.LEFT = Rew.val (-1)) ∧
    (illegal 2 2 false 0 Actions.LEFT = true →
      (mkGrid 2 2 (fun _ => some 5) none (-1) true false false 1).rewards 0
        Actions.LEFT = Rew.ninf)) :=
  ⟨by decide, claim_C2 2 2 (fun _ => some 5) none (-1) 1 true false false 0 Actions.LEFT
    (by decide)⟩

/-- C5: with `euclidean_rewards` set, every entry of the four
diagonal-action columns of the constructed table equals `sqrt2` times the
value produced by the per-pair reward-assignment rule (`-inf` staying
`-inf`), and the scaling step leaves every non-diagonal column
unchanged. -/
theorem claim_C5 (rows cols : ℕ) (rdict : ℕ × ℕ → Option ℚ) (goal_state : Option ℕ)
    (default_reward sqrt2 : ℚ) (aw dd : Bool) (s : ℕ) (a : Actions) :
    (a.diagonal = true →
      (mkGrid rows cols rdict goal_state default_reward true aw dd sqrt2).rewards s a =
        Rew.scale sqrt2 (baseReward rows cols dd rdict default_reward s a)) ∧
    (a.diagonal = false →
      scaledRewards rows cols dd rdict default_reward true sqrt2 s a =
        baseReward rows cols dd rdict default_reward s a) := by
  constructor
  · intro hd
    have habs : a ≠ Actions.ABSORB := by
      cases a <;> simp_all [Actions.diagonal]
    rw [mkGrid_rewards]
    unfold absorbColumnFill
    rw [if_neg habs]
    unfold scaledRewards
    rw [hd]
    simp
  · intro hd
    unfold scaledRewards
    rw [hd]
    simp

/-- Witness for C5 on the 2 x 2 grid at state 0 and the diagonal action
UP_RIGHT. -/
theorem claim_C5_witness :
    ((Actions.UP_RIGHT.diagonal = true →
      (mkGrid 2 2 (fun _ => none) none (-1) true false false 1).rewards 0
          Actions.UP_RIGHT =
        Rew.scale 1 (baseReward 2 2 false (fun _ => none) (-1) 0 Actions.UP_RIGHT)) ∧
    (Actions.UP_RIGHT.diagonal = false →
      scaledRewards 2 2 false (fun _ => none) (-1) true 1 0 Actions.UP_RIGHT =
        baseReward 2 2 false (fun _ => none) (-1) 0 Actions.UP_RIGHT)) :=
  claim_C5 2 2 (fun _ => none) none (-1) 1 false false 0 Actions.UP_RIGHT

/-- C4: after `set_goal (some g)` the ABSORB reward at `g` is `0`, the
ABSORB reward at every other state is `default_reward` when `allow_wait`
is set and `-inf` otherwise; the operation is idempotent, and a later
`set_goal (some g')` with `g' ≠ g` fully clears the special-casing of
`g`. -/
theorem claim_C4 (e : GridWorldMDP) (g g' : ℕ)
    (hg : g < e.rows * e.cols) (hg' : g' < e.rows * e.cols) (hne : g' ≠ g) :
    ((e.set_goal (some g)).rewards g Actions.ABSORB = Rew.val 0) ∧
    (∀ s, s ≠ g → (e.set_goal (some g)).rewards s Actions.ABSORB =
        if e.allow_wait then Rew.val e.default_reward else Rew.ninf) ∧
    ((e.set_goal (some g)).set_goal (some g) = e.set_goal (some g)) ∧
    (((e.set_goal (some g)).set_goal (some g')).rewards g Actions.ABSORB =
        if e.allow_wait then Rew.val e.default_reward else Rew.ninf) := by
  refine ⟨?_, ?_, ?_, ?_⟩
  · simp [GridWorldMDP.set_goal, absorbColumnFill]
  · intro s hsg
    have hgs : ¬((some g : Option ℕ) = some s) := by
      simp only [Option.some.injEq]
      exact fun h => hsg h.symm
    simp [GridWorldMDP.set_goal, absorbColumnFill, hgs]
  · ext s a
    · rfl
    · rfl
    · rfl
    · rfl
    · rfl
    · rfl
    · show absorbColumnFill e.allow_wait e.default_reward (some g)
        (absorbColumnFill e.allow_wait e.default_reward (some g) e.rewards) s a =
        absorbColumnFill e.allow_wait e.default_reward (some g) e.rewards s a
      unfold absorbColumnFill
      by_cases habs : a = Actions.ABSORB
      · simp [habs]
      · simp [habs]
    · rfl
    · rfl
    · rfl
  · simp [GridWorldMDP.set_goal, absorbColumnFill, Option.some.injEq, hne]

/-- Witness for C4 on the 2 x 2 grid with goals 0 and 3. -/
theorem claim_C4_witness :
    ((0 : ℕ) < 2 * 2 ∧ (3 : ℕ) < 2 * 2 ∧ (3 : ℕ) ≠ 0) ∧
    ((((mkGrid 2 2 (fun _ => none) none (-1) true false false 1).set_goal
        (some 0)).rewards 0 Actions.ABSORB = Rew.val 0) ∧
    (∀ s, s ≠ 0 →
      ((mkGrid 2 2 (fun _ => none) none (-1) true false false 1).set_goal
          (some 0)).rewards s Actions.ABSORB =
        if (mkGrid 2 2 (fun _ => none) none (-1) true false false 1).allow_wait then
          Rew.val (mkGrid 2 2 (fun _ => none) none (-1) true false false 1).default_reward
        else Rew.ninf) ∧
    ((((mkGrid 2 2 (fun _ => none) none (-1) true false false 1).set_goal
        (some 0)).set_goal (some 0)) =
      (mkGrid 2 2 (fun _ => none) none (-1) true false false 1).set_goal (some 0)) ∧
    ((((mkGrid 2 2 (fun _ => none) none (-1) true false false 1).set_goal
        (some 0)).set_goal (some 3)).rewards 0 Actions.ABSORB =
        if (mkGrid 2 2 (fun _ => none) none (-1) true false false 1).allow_wait then
          Rew.val (mkGrid 2 2 (fun _ => none) none (-1) true false false 1).default_reward
        else Rew.ninf)) :=
  ⟨⟨by decide, by decide, by decide⟩,
    claim_C4 (mkGrid 2 2 (fun _ => none) none (-1) true false false 1) 0 3
      (by decide) (by decide) (by decide)⟩

/-- C6: for every valid coordinate, `decode (encode (r, c)) = (r, c)` with
`encode (r, c) = r * cols + c`, and for every valid state `s`,
`encode (decode s) = s`. -/
theorem claim_C6 (rows cols : ℕ) (r c s : ℤ)
    (hr0 : 0 ≤ r) (hr : r < (rows : ℤ)) (hc0 : 0 ≤ c) (hc : c < (cols : ℤ))
    (hs0 : 0 ≤ s) (hs : s < (rows : ℤ) * cols) :
    coor_to_state_opt rows cols r c = some (r * cols + c) ∧
    state_to_coor_opt rows cols (r * cols + c) = some (r, c) ∧
    ∃ p, state_to_coor_opt rows cols s = some p ∧
      coor_to_state_opt rows cols p.1 p.2 = some s := by
  have hcpos : (0 : ℤ) < cols := lt_of_le_of_lt hc0 hc
  refine ⟨?_, ?_, ?_⟩
  · unfold coor_to_state_opt
    rw [if_pos ⟨hr0, hr, hc0, hc⟩]
  · unfold state_to_coor_opt
    have hrc : (r + 1) * cols = r * cols + cols := by ring
    have h1 : r * cols + c < (r + 1) * cols := by rw [hrc]; linarith
    have h2 : (r + 1) * cols ≤ (rows : ℤ) * cols :=
      mul_le_mul_of_nonneg_right (by linarith) (le_of_lt hcpos)
    rw [if_pos (by linarith : r * cols + c < (rows : ℤ) * cols)]
    have hdiv : (r * cols + c).fdiv cols = r := by
      rw [Int.fdiv_eq_ediv _ (le_of_lt hcpos), add_comm (r * cols) c,
        Int.add_mul_ediv_right c r (ne_of_gt hcpos),
        Int.ediv_eq_zero_of_lt hc0 hc, zero_add]
    have hmod : (r * cols + c).fmod cols = c := by
      rw [Int.fmod_eq_emod _ (le_of_lt hcpos), add_comm (r * cols) c,
        Int.add_mul_emod_self]
      exact Int.emod_eq_of_lt hc0 hc
    rw [hdiv, hmod]
  · refine ⟨(s.fdiv cols, s.fmod cols), ?_, ?_⟩
    · unfold state_to_coor_opt
      rw [if_pos hs]
    · have hd : s.fdiv cols = s / cols := Int.fdiv_eq_ediv _ (le_of_lt hcpos)
      have hm : s.fmod cols = s % cols := Int.fmod_eq_emod _ (le_of_lt hcpos)
      have h1 : 0 ≤ s / cols := Int.ediv_nonneg hs0 (le_of_lt hcpos)
      have h2 : s / cols < (rows : ℤ) :=
        (Int.ediv_lt_iff_lt_mul hcpos).mpr (by linarith)
      have h3 : 0 ≤ s % cols := Int.emod_nonneg s (ne_of_gt hcpos)
      have h4 : s % cols < cols := Int.emod_lt_of_pos s hcpos
      unfold coor_to_state_opt
      simp only [hd, hm]
      rw [if_pos ⟨h1, h2, h3, h4⟩]
      congr 1
      have hde := Int.ediv_add_emod s cols
      linarith

/-- Witness for C6 on the 2 x 3 grid at coordinate (1, 2) and state 5. -/
theorem claim_C6_witness :
    ((0 : ℤ) ≤ 1 ∧ (1 : ℤ) < ((2 : ℕ) : ℤ) ∧ (0 : ℤ) ≤ 2 ∧
      (2 : ℤ) < ((3 : ℕ) : ℤ) ∧ (0 : ℤ) ≤ 5 ∧ (5 : ℤ) < ((2 : ℕ) : ℤ) * (3 : ℕ)) ∧
    (coor_to_state_opt 2 3 1 2 = some (1 * (3 : ℕ) + 2) ∧
    state_to_coor_opt 2 3 (1 * (3 : ℕ) + 2) = some (1, 2) ∧
    ∃ p, state_to_coor_opt 2 3 5 = some p ∧
      coor_to_state_opt 2 3 p.1 p.2 = some 5) :=
  ⟨by decide,
    claim_C6 2 3 1 2 5 (by decide) (by decide) (by decide) (by decide)
      (by decide) (by decide)⟩

/-- C7 is refuted at the negative state index `-1` on a 2 x 2 grid: the
claim requires `decode` to fail for every negative state index, but
`state_to_coor` only asserts `s < rows * cols`, so `decode (-1)` succeeds
and returns the out-of-range coordinate `(-1, 1)`. -/
theorem claim_C7_counterexample :
    state_to_coor_opt 2 2 (-1) ≠ none ∧
    state_to_coor_opt 2 2 (-1) = some (-1, 1) := by decide

/-- C7 (amended): `encode` fails iff the row or the column is out of
range; `decode s` fails iff `s ≥ rows * cols` — there is no lower-bound
check, so every negative state index is accepted. -/
theorem claim_C7_amended (rows cols : ℕ) (r c s : ℤ) :
    (coor_to_state_opt rows cols r c = none ↔
      ¬(0 ≤ r ∧ r < (rows : ℤ) ∧ 0 ≤ c ∧ c < (cols : ℤ))) ∧
    (state_to_coor_opt rows cols s = none ↔ (rows : ℤ) * cols ≤ s) := by
  constructor
  · unfold coor_to_state_opt
    split
    · rename_i h
      simp [h]
    · rename_i h
      simp [h]
  · unfold state_to_coor_opt
    split
    · rename_i h
      constructor
      · intro hx
        cases hx
      · intro hx
        exact absurd hx (by omega)
    · rename_i h
      constructor
      · intro _
        omega
      · intro _
        rfl

/-- C8: `copy()` yields a reward table element-wise equal to the source's
at the time of the copy, and — since `np.copy` allocates a fresh array —
the two tables share no storage: in the array store, any in-place
mutation of the source's array (such as the column fills of `set_goal`
or `set_all_goals`) leaves the copy's array unchanged, and vice versa. -/
theorem claim_C8 (st : RewStore) (eid : ℕ) (heid : eid < st.next)
    (sqrt2 : ℚ) (e : GridWorldMDP) :
    ((GridWorldMDP.copy sqrt2 e).rewards = e.rewards) ∧
    ((st.npcopy eid).1.mem (st.npcopy eid).2 = st.mem eid) ∧
    (∀ f, ((st.npcopy eid).1.update eid f).mem (st.npcopy eid).2 = st.mem eid) ∧
    (∀ f, ((st.npcopy eid).1.update (st.npcopy eid).2 f).mem eid = st.mem eid) := by
  have hne : st.next ≠ eid := by omega
  have hne' : eid ≠ st.next := by omega
  refine ⟨rfl, ?_, ?_, ?_⟩
  · simp [RewStore.npcopy]
  · intro f
    simp [RewStore.npcopy, RewStore.update, hne]
  · intro f
    simp [RewStore.npcopy, RewStore.update, hne']

/-- Witness for C8: a store holding one array, copied, then mutated on
either side. -/
theorem claim_C8_witness :
    (0 : ℕ) < 1 ∧
    (((GridWorldMDP.copy 1 (mkGrid 1 1 (fun _ => none) none (-1) true false
        false 1)).rewards =
      (mkGrid 1 1 (fun _ => none) none (-1) true false false 1).rewards) ∧
    ((RewStore.npcopy ⟨1, fun _ _ _ => Rew.ninf⟩ 0).1.mem
        (RewStore.npcopy ⟨1, fun _ _ _ => Rew.ninf⟩ 0).2 =
      RewStore.mem ⟨1, fun _ _ _ => Rew.ninf⟩ 0) ∧
    (∀ f, ((RewStore.npcopy ⟨1, fun _ _ _ => Rew.ninf⟩ 0).1.update 0 f).mem
        (RewStore.npcopy ⟨1, fun _ _ _ => Rew.ninf⟩ 0).2 =
      RewStore.mem ⟨1, fun _ _ _ => Rew.ninf⟩ 0) ∧
    (∀ f, ((RewStore.npcopy ⟨1, fun _ _ _ => Rew.ninf⟩ 0).1.update
        (RewStore.npcopy ⟨1, fun _ _ _ => Rew.ninf⟩ 0).2 f).mem 0 =
      RewStore.mem ⟨1, fun _ _ _ => Rew.ninf⟩ 0)) :=
  ⟨by decide, claim_C8 ⟨1, fun _ _ _ => Rew.ninf⟩ 0 (by decide) 1
    (mkGrid 1 1 (fun _ => none) none (-1) true false false 1)⟩

/-- C9 is refuted at `S = 0`, `A = 0`: the claim requires construction to
fail whenever `S` or `A` is not a positive integer, but `MDP.__init__`
only asserts `isinstance(S, int)`, never positivity, so a 0 x 0 reward
matrix with `S = A = 0` and a callable transition is accepted. -/
theorem claim_C9_counterexample :
    MDP.init 0 0 ⟨(0, 0), fun _ _ => Rew.val 0⟩ ⟨true, fun _ _ => 0⟩ =
      Except.ok ⟨0, 0, ⟨(0, 0), fun _ _ => Rew.val 0⟩, ⟨true, fun _ _ => 0⟩⟩ := rfl

/-- C9 (amended): abstract MDP construction fails with a shape error iff
the reward matrix dimensions do not match `S x A`; with dimensions
matching, it fails iff the transition argument is not invocable; and when
both checks pass it succeeds — even for non-positive `S` or `A` — storing
`S`, `A`, `rewards` and `transition` unchanged.  (`S` and `A` being
Python ints is enforced by the `isinstance` asserts, which the typed
embedding makes vacuous.) -/
theorem claim_C9_amended (S A : ℤ) (rewards : NpMatrix) (t : PyCallable) :
    (MDP.init S A rewards t = Except.error MDPError.shapeError ↔
      ¬((rewards.shape.1 : ℤ) = S ∧ (rewards.shape.2 : ℤ) = A)) ∧
    (MDP.init S A rewards t = Except.error MDPError.typeError ↔
      (((rewards.shape.1 : ℤ) = S ∧ (rewards.shape.2 : ℤ) = A) ∧
        t.callable = false)) ∧
    (((rewards.shape.1 : ℤ) = S ∧ (rewards.shape.2 : ℤ) = A) → t.callable = true →
      MDP.init S A rewards t = Except.ok ⟨S, A, rewards, t⟩) := by
  by_cases hsh : ((rewards.shape.1 : ℤ) = S ∧ (rewards.shape.2 : ℤ) = A)
  · by_cases hc : t.callable = true
    · refine ⟨?_, ?_, ?_⟩
      · simp [MDP.init, hsh, hc]
      · simp [MDP.init, hsh, hc]
      · intro _ _
        simp [MDP.init, hsh, hc]
    · have hcf : t.callable = false := by simpa using hc
      refine ⟨?_, ?_, ?_⟩
      · simp [MDP.init, hsh, hcf]
      · simp [MDP.init, hsh, hcf]
      · intro _ hct
        rw [hct] at hcf
        cases hcf
  · refine ⟨?_, ?_, ?_⟩
    · simp [MDP.init, hsh]
    · simp [MDP.init, hsh]
    · intro hx _
      exact absurd hx hsh

/-- Witness for C9 (amended) at `S = 2`, `A = 9`, a 2 x 9 matrix and a
callable transition. -/
theorem claim_C9_witness :
    ((((2 : ℕ) : ℤ) = 2 ∧ ((9 : ℕ) : ℤ) = 9) ∧
    MDP.init 2 9 ⟨(2, 9), fun _ _ => Rew.val 0⟩ ⟨true, fun _ _ => 0⟩ =
      Except.ok ⟨2, 9, ⟨(2, 9), fun _ _ => Rew.val 0⟩, ⟨true, fun _ _ => 0⟩⟩) :=
  ⟨⟨by decide, by decide⟩,
    (claim_C9_amended 2 9 ⟨(2, 9), fun _ _ => Rew.val 0⟩ ⟨true, fun _ _ => 0⟩).2.2
      ⟨by decide, by decide⟩ rfl⟩
